import Mathlib

/-!
# Verification of the tabular data profiling engine of `view_db.py`

Shallow embedding of the profiling slice of the repository:
`safe_unique_count`, `safe_value_counts`, `detect_coordinate_columns` and
`analyze_data` from `src/view_db.py`, together with proofs of the spec's
claims about them.

Modelling conventions:
* Cell values are a tagged variant: Python scalars, the missing marker
  (`None`/`NaN`, collapsed into one `null` constructor) and nested
  `dict`/`list` objects.  Numbers are exact rationals.
* pandas `Series.nunique()` / `Series.value_counts()` raise `TypeError` as
  soon as the series holds an unhashable value (a `dict` or `list`); this
  is modelled by the `Option`-valued `nunique` and by the explicit
  unhashable test in the `safe_*` wrappers, exactly mirroring the
  `try/except TypeError` dispatch of the source.
* `Series.value_counts` returns the distinct values ordered by descending
  count, ties in first-seen order; it is modelled by a stable descending
  insertion sort over the first-seen distinct values.
* `(null_count / len(df)) * 100` has no zero-row guard in the source; with
  numpy scalars and the module-wide warning filter it silently produces
  `NaN`.  The `NaN` outcome is modelled as `none : Option ℚ`.
* The `for col in df.columns` loop of `analyze_data` only ever appends to
  the four report lists, so each final list is the in-column-order filter
  of the columns by the corresponding condition, mapped through the
  per-column profile construction; `analyze_data` is written in that
  filter/map normal form.
-/

namespace ViewDb

mutual

/-- A cell of a loaded table: a Python scalar, the missing marker, or a
nested `dict`/`list` object (`src/view_db.py` inspects cells only through
`isinstance(val, (dict, list))`, `str(val)` and hash-based grouping). -/
inductive Cell where
  | null : Cell
  | int : Int → Cell
  | float : ℚ → Cell
  | str : String → Cell
  | bool : Bool → Cell
  | dict : KVList → Cell
  | list : CellList → Cell

/-- Entries of a Python `dict` cell. -/
inductive KVList where
  | nil : KVList
  | cons : String → Cell → KVList → KVList

/-- Items of a Python `list` cell. -/
inductive CellList where
  | nil : CellList
  | cons : Cell → CellList → CellList

end

deriving instance DecidableEq for Cell
deriving instance DecidableEq for KVList
deriving instance DecidableEq for CellList

mutual

/-- Python `str(value)`, as applied by `series.astype(str)`: the missing
marker renders to `"None"`, dicts and lists to bracketed renderings.
(The exact quoting of dict keys is immaterial to the source logic, which
only compares renderings for equality.) -/
def pyStr : Cell → String
  | .null => "None"
  | .int i => toString i
  | .float q => toString q
  | .str s => s
  | .bool b => if b then "True" else "False"
  | .dict kvs => "\x7b" ++ pyStrKVs kvs ++ "\x7d"
  | .list items => "[" ++ pyStrItems items ++ "]"

def pyStrKVs : KVList → String
  | .nil => ""
  | .cons k v .nil => k ++ ": " ++ pyStr v
  | .cons k v rest => k ++ ": " ++ pyStr v ++ ", " ++ pyStrKVs rest

def pyStrItems : CellList → String
  | .nil => ""
  | .cons c .nil => pyStr c
  | .cons c rest => pyStr c ++ ", " ++ pyStrItems rest

end

/-- Is this cell the missing marker (`pd.isnull`)? -/
def isNullCell : Cell → Bool
  | .null => true
  | _ => false

/-- Python `isinstance(val, (dict, list))`; these are exactly the
unhashable cell shapes, so the same test decides both the nested check of
`analyze_data` and the `TypeError` fallback of the `safe_*` helpers. -/
def isDictOrList : Cell → Bool
  | .dict _ => true
  | .list _ => true
  | _ => false

/-- `series.dropna()`: the non-null values, in order. -/
def dropna (vs : List Cell) : List Cell := vs.filter (fun c => !isNullCell c)

/-- pandas `series.nunique()` (default `dropna=True`): the number of
distinct non-null values; `none` models the `TypeError` raised as soon as
the series holds an unhashable (`dict`/`list`) value. -/
def nunique (vs : List Cell) : Option Nat :=
  if vs.any isDictOrList then none
  else some ((dropna vs).dedup.length)

/-- `series.astype(str)`: every value (missing markers included) replaced
by its string rendering. -/
def astype_str (vs : List Cell) : List Cell :=
  vs.map (fun c => Cell.str (pyStr c))

/-- `safe_unique_count` (view_db.py:167-173): try `series.nunique()`; on
`TypeError` fall back to `series.astype(str).nunique()`. -/
def safe_unique_count (vs : List Cell) : Nat :=
  match nunique vs with
  | some n => n
  | none => (nunique (astype_str vs)).getD 0

/-- The key order of the pandas hashtable underlying `value_counts`: emit
each value at its first occurrence; `seen` accumulates the emitted keys. -/
def firstSeenAux (seen : List Cell) : List Cell → List Cell
  | [] => []
  | c :: rest =>
      if c ∈ seen then firstSeenAux seen rest
      else c :: firstSeenAux (c :: seen) rest

/-- The distinct values of a list in first-seen order. -/
def firstSeen (vs : List Cell) : List Cell := firstSeenAux [] vs

/-- Stable descending insertion (by count): the new pair is placed before
the first existing pair whose count is not larger. -/
def insertDesc (x : Cell × Nat) : List (Cell × Nat) → List (Cell × Nat)
  | [] => [x]
  | y :: ys => if x.2 < y.2 then y :: insertDesc x ys else x :: y :: ys

/-- Stable insertion sort by descending count. -/
def sortDesc : List (Cell × Nat) → List (Cell × Nat)
  | [] => []
  | x :: xs => insertDesc x (sortDesc xs)

/-- pandas `series.value_counts(dropna=False)`: one `(value, count)` pair
per distinct value (missing markers included as an ordinary key), ordered
by descending count, ties in first-seen order. -/
def value_counts (vs : List Cell) : List (Cell × Nat) :=
  sortDesc ((firstSeen vs).map (fun c => (c, vs.count c)))

/-- `safe_value_counts` (view_db.py:175-181): try
`series.value_counts(dropna=False)`; on `TypeError` fall back to
`series.astype(str).value_counts(dropna=False)`. -/
def safe_value_counts (vs : List Cell) : List (Cell × Nat) :=
  if vs.any isDictOrList then value_counts (astype_str vs) else value_counts vs

/-- The pandas dtype of a column, as far as the source inspects it:
`analyze_data` only tests `== 'object'` and `in ['int64', 'float64']`. -/
inductive Dtype where
  | int64 : Dtype
  | float64 : Dtype
  | obj : Dtype
  | boolDt : Dtype

deriving instance DecidableEq for Dtype

/-- `df[col].dtype in ['int64', 'float64']`. -/
def isNumericDtype : Dtype → Bool
  | .int64 => true
  | .float64 => true
  | _ => false

/-- One named column of the loaded DataFrame. -/
structure Column where
  name : String
  dtype : Dtype
  values : List Cell

deriving instance DecidableEq for Column

/-- The loaded DataFrame: `nrows = len(df)` plus the ordered columns. -/
structure Table where
  nrows : Nat
  columns : List Column

deriving instance DecidableEq for Table

/-- A pandas DataFrame is rectangular: every column has `len(df)` cells. -/
@[reducible] def Rectangular (t : Table) : Prop :=
  ∀ c ∈ t.columns, c.values.length = t.nrows

/-- The `spatial_info` dict produced by `load_data`. -/
structure SpatialInfo where
  is_spatial : Bool
  crs : Option String
  geometry_column : Option String
  geometry_types : List String

deriving instance DecidableEq for SpatialInfo

/-- `lat_names` (view_db.py:144). -/
def lat_names : List String :=
  ["lat", "latitude", "y", "y_coord", "northing", "lat_deg"]

/-- `lon_names` (view_db.py:145). -/
def lon_names : List String :=
  ["lon", "lng", "longitude", "x", "x_coord", "easting", "lon_deg"]

/-- Latitude substring patterns of the second loop (view_db.py:156). -/
def lat_patterns : List String := ["lat", "y_", "north"]

/-- Longitude substring patterns of the second loop (view_db.py:160). -/
def lon_patterns : List String := ["lon", "lng", "x_", "east"]

/-- ASCII case folding of one character (Python `str.lower()` on the
ASCII names the heuristics deal in). -/
def charLower (c : Char) : Char :=
  if c.toNat ≥ 65 ∧ c.toNat ≤ 90 then Char.ofNat (c.toNat + 32) else c

/-- `col.lower()`. -/
def strLower (s : String) : String := String.mk (s.data.map charLower)

/-- Does the first character list start with the second? -/
def startsWithChars : List Char → List Char → Bool
  | _, [] => true
  | [], _ :: _ => false
  | c :: cs, p :: ps => c == p && startsWithChars cs ps

/-- Does the first character list contain the second as a contiguous run? -/
def containsChars : List Char → List Char → Bool
  | [], pat => pat.isEmpty
  | c :: cs, pat => startsWithChars (c :: cs) pat || containsChars cs pat

/-- Python `pat in s` on strings. -/
def strContains (s pat : String) : Bool := containsChars s.data pat.data

/-- First loop of `detect_coordinate_columns` (view_db.py:148-151):
`col.lower() in lat_names or col.lower() in lon_names`. -/
def exactCoordMatch (n : String) : Bool :=
  lat_names.contains (strLower n) || lon_names.contains (strLower n)

/-- `any(p in col.lower() for p in ['lat', 'y_', 'north'])`. -/
def latSubMatch (n : String) : Bool :=
  lat_patterns.any (fun p => strContains (strLower n) p)

/-- `any(p in col.lower() for p in ['lon', 'lng', 'x_', 'east'])`. -/
def lonSubMatch (n : String) : Bool :=
  lon_patterns.any (fun p => strContains (strLower n) p)

/-- Second loop of `detect_coordinate_columns` (view_db.py:154-163): for
each column, append it on a latitude-substring match unless already a
candidate, then append it on a longitude-substring match unless already a
candidate (the `break` only leaves the inner pattern loop). -/
def coordLoop (acc : List String) : List String → List String
  | [] => acc
  | n :: rest =>
      let acc1 := if latSubMatch n && !acc.contains n then acc ++ [n] else acc
      let acc2 := if lonSubMatch n && !acc1.contains n then acc1 ++ [n] else acc1
      coordLoop acc2 rest

/-- `detect_coordinate_columns` (view_db.py:139-165): the exact-name
matches in column order, then the substring loop over all columns. -/
def detect_coordinate_columns (cols : List Column) : List String :=
  coordLoop ((cols.map Column.name).filter exactCoordMatch) (cols.map Column.name)

/-- `df[col].isnull().sum()`. -/
def nullCount (vs : List Cell) : Nat := (vs.filter isNullCell).length

/-- `(null_count / len(df)) * 100` (view_db.py:203).  The source has no
zero-row guard; numpy evaluates `0 / 0` to `NaN` (the module-wide warning
filter silences the `RuntimeWarning`), modelled as `none`. -/
def null_percentage (nrows : Nat) (vs : List Cell) : Option ℚ :=
  if nrows = 0 then none
  else some ((nullCount vs : ℚ) / (nrows : ℚ) * 100)

/-- `unique_count / len(df) if len(df) > 0 else 0` (view_db.py:205). -/
def unique_ratio (nrows : Nat) (vs : List Cell) : ℚ :=
  if 0 < nrows then (safe_unique_count vs : ℚ) / (nrows : ℚ) else 0

/-- The nested check of `analyze_data` (view_db.py:215-225): dtype is
`object` and one of the first 3 non-null values is a dict or list. -/
def is_nested_col (col : Column) : Bool :=
  col.dtype == Dtype.obj && ((dropna col.values).take 3).any isDictOrList

/-- The three mutually exclusive categories of the `if/elif/else` chain. -/
inductive Category where
  | nested : Category
  | unique : Category
  | categorical : Category

deriving instance DecidableEq for Category

/-- The `if/elif/else` chain of `analyze_data` (view_db.py:232-264):
nested first, else unique on numeric dtype or `unique_ratio > 0.5`, else
categorical. -/
def colCategory (nrows : Nat) (col : Column) : Category :=
  if is_nested_col col then Category.nested
  else if isNumericDtype col.dtype || decide ((1 : ℚ) / 2 < unique_ratio nrows col.values) then
    Category.unique
  else Category.categorical

/-- The keys of a dict cell. -/
def kvKeys : KVList → List String
  | .nil => []
  | .cons k _ rest => k :: kvKeys rest

/-- The length of a list cell. -/
def cellListLen : CellList → Nat
  | .nil => 0
  | .cons _ rest => cellListLen rest + 1

/-- One example line for a nested field (view_db.py:239-245). -/
def exampleStr (c : Cell) : String :=
  match c with
  | .dict kvs => "Dict with keys: [" ++ String.intercalate ", " (kvKeys kvs) ++ "]"
  | .list items => "List with " ++ toString (cellListLen items) ++ " items"
  | _ =>
      let s := pyStr c
      if 50 < s.length then s.take 50 ++ "..." else s

/-- `examples` of a nested field: first 3 non-null values rendered, only
set when there is a non-null value (view_db.py:236-246). -/
def nestedExamples (vs : List Cell) : Option (List String) :=
  if (dropna vs).length > 0 then some (((dropna vs).take 3).map exampleStr)
  else none

/-- The numeric statistics block (view_db.py:253-258). -/
structure NumStats where
  min : ℚ
  max : ℚ
  mean : ℚ
  median : ℚ

deriving instance DecidableEq for NumStats

/-- `non_null_data.min()`. -/
def ratMin : List ℚ → ℚ
  | [] => 0
  | x :: xs => xs.foldl min x

/-- `non_null_data.max()`. -/
def ratMax : List ℚ → ℚ
  | [] => 0
  | x :: xs => xs.foldl max x

/-- `non_null_data.mean()`. -/
def ratMean (l : List ℚ) : ℚ := l.sum / l.length

/-- `non_null_data.median()`: middle of the sorted values, or the average
of the two middles for an even count. -/
def ratMedian (l : List ℚ) : ℚ :=
  let s := l.insertionSort (· ≤ ·)
  if l.length % 2 = 1 then s.getD (l.length / 2) 0
  else (s.getD (l.length / 2 - 1) 0 + s.getD (l.length / 2) 0) / 2

/-- The numeric value of a cell (`view_db.py` only aggregates cells of
numeric columns; Python bools are numeric with `True == 1`). -/
def cellToRat : Cell → ℚ
  | .int i => (i : ℚ)
  | .float q => q
  | .bool b => if b then 1 else 0
  | _ => 0

/-- The `col_info` dict.  Fields that a branch never sets stay `none`
(absent keys of the Python dict). -/
structure ColInfo where
  name : String
  dtype : Dtype
  null_count : Nat
  null_percentage : Option ℚ
  unique_count : Nat
  nested_type : Option String
  examples : Option (List String)
  stats : Option NumStats
  value_counts : Option (List (Cell × Nat))

deriving instance DecidableEq for ColInfo

/-- The `col_info` dict as first built (view_db.py:207-213), before the
category branches add their fields; the high-null list stores a copy taken
at exactly this point (view_db.py:227-229). -/
def baseColInfo (nrows : Nat) (col : Column) : ColInfo :=
  { name := col.name
  , dtype := col.dtype
  , null_count := nullCount col.values
  , null_percentage := null_percentage nrows col.values
  , unique_count := safe_unique_count col.values
  , nested_type := none
  , examples := none
  , stats := none
  , value_counts := none }

/-- `col_info` after the category branch of the column ran
(view_db.py:232-264). -/
def enrichCol (nrows : Nat) (col : Column) : ColInfo :=
  let base := baseColInfo nrows col
  match colCategory nrows col with
  | Category.nested =>
      { base with nested_type := some "dict/list"
                , examples := nestedExamples col.values }
  | Category.unique =>
      if isNumericDtype col.dtype && !(dropna col.values).isEmpty then
        let nums := (dropna col.values).map cellToRat
        { base with stats := some { min := ratMin nums, max := ratMax nums
                                  , mean := ratMean nums, median := ratMedian nums } }
      else base
  | Category.categorical =>
      { base with value_counts := some (safe_value_counts col.values) }

/-- `null_percentage > 20` (view_db.py:228); `NaN > 20` is false. -/
def highNull (nrows : Nat) (vs : List Cell) : Bool :=
  match null_percentage nrows vs with
  | some p => decide (20 < p)
  | none => false

/-- The `analysis` dict returned by `analyze_data`. -/
structure Analysis where
  total_columns : Nat
  total_rows : Nat
  unique_fields : List ColInfo
  categorical_fields : List ColInfo
  high_null_fields : List ColInfo
  nested_fields : List ColInfo
  spatial_info : SpatialInfo
  coordinate_candidates : List String

deriving instance DecidableEq for Analysis

/-- `analyze_data` (view_db.py:183-266).  The column loop only appends, so
each report list is the in-column-order filter of the columns by its
condition; the high-null list stores the base `col_info` copy, the
category lists the branch-enriched one. -/
def analyze_data (t : Table) (si : SpatialInfo) : Analysis :=
  { total_columns := t.columns.length
  , total_rows := t.nrows
  , unique_fields :=
      (t.columns.filter (fun c => colCategory t.nrows c == Category.unique)).map
        (enrichCol t.nrows)
  , categorical_fields :=
      (t.columns.filter (fun c => colCategory t.nrows c == Category.categorical)).map
        (enrichCol t.nrows)
  , high_null_fields :=
      (t.columns.filter (fun c => highNull t.nrows c.values)).map (baseColInfo t.nrows)
  , nested_fields :=
      (t.columns.filter (fun c => colCategory t.nrows c == Category.nested)).map
        (enrichCol t.nrows)
  , spatial_info := si
  , coordinate_candidates :=
      if si.is_spatial then [] else detect_coordinate_columns t.columns }

/-- The series actually handed to `value_counts` by `safe_value_counts`:
the raw values on the direct path, their string renderings on the
`TypeError` fallback path. -/
def svcSeries (vs : List Cell) : List Cell :=
  if vs.any isDictOrList then astype_str vs else vs

/-! ### Concrete example data (used by the witnesses and counterexamples) -/

/-- `SpatialMetadata` of a plain non-spatial load. -/
def plainInfo : SpatialInfo :=
  { is_spatial := false, crs := none, geometry_column := none, geometry_types := [] }

/-- The mapping value `dict(a=1)`. -/
def mapA : Cell := Cell.dict (KVList.cons "a" (Cell.int 1) KVList.nil)

/-- The mapping value `dict(b=2)`. -/
def mapB : Cell := Cell.dict (KVList.cons "b" (Cell.int 2) KVList.nil)

/-- An object column of length 5: two distinct mappings and three nulls. -/
def metaCol : Column :=
  { name := "meta", dtype := Dtype.obj, values := [mapA, mapB, Cell.null, Cell.null, Cell.null] }

/-- One-column table around `metaCol`. -/
def metaTable : Table := { nrows := 5, columns := [metaCol] }

/-- A one-column table with zero rows. -/
def zeroRowTable : Table :=
  { nrows := 0, columns := [{ name := "v", dtype := Dtype.int64, values := [] }] }

/-- A numeric identifier column (classified unique through its dtype). -/
def idCol : Column :=
  { name := "id", dtype := Dtype.int64
  , values := [Cell.int 1, Cell.int 2, Cell.int 3, Cell.int 4] }

/-- A repeating string column (classified categorical). -/
def cityCol : Column :=
  { name := "city", dtype := Dtype.obj
  , values := [Cell.str "a", Cell.str "a", Cell.str "b", Cell.str "b"] }

/-- An object column whose first non-null value is a mapping (nested). -/
def nestedCol : Column :=
  { name := "meta2", dtype := Dtype.obj
  , values := [mapA, Cell.null, Cell.null, Cell.null] }

/-- A numeric column with zero non-null values. -/
def emptyNumCol : Column :=
  { name := "empty", dtype := Dtype.float64
  , values := [Cell.null, Cell.null, Cell.null, Cell.null] }

/-- A four-row table holding one column of each kind. -/
def demoTable : Table :=
  { nrows := 4, columns := [idCol, cityCol, nestedCol, emptyNumCol] }

/-- A categorical object column with three `"a"` values and one null. -/
def cityNullCol : Column :=
  { name := "c", dtype := Dtype.obj
  , values := [Cell.str "a", Cell.str "a", Cell.str "a", Cell.null] }

/-- Columns whose names trip the coordinate heuristics in an order that
separates the exact pass from the substring pass. -/
def latTable : Table :=
  { nrows := 0
  , columns := [ { name := "my_lat_col", dtype := Dtype.float64, values := [] }
               , { name := "lat", dtype := Dtype.float64, values := [] } ] }

/-- The spec's own coordinate-detection example table. -/
def coordTable : Table :=
  { nrows := 0
  , columns := [ { name := "Latitude", dtype := Dtype.float64, values := [] }
               , { name := "Lng", dtype := Dtype.float64, values := [] }
               , { name := "name", dtype := Dtype.obj, values := [] }
               , { name := "value", dtype := Dtype.float64, values := [] } ] }

/-- A column with 3 nulls out of 10 values (30 percent null). -/
def highNullCol : Column :=
  { name := "a", dtype := Dtype.float64
  , values := [Cell.null, Cell.null, Cell.null, Cell.int 1, Cell.int 1, Cell.int 1,
               Cell.int 1, Cell.int 1, Cell.int 1, Cell.int 1] }

/-- A column with exactly 2 nulls out of 10 values (20 percent null). -/
def lowNullCol : Column :=
  { name := "b", dtype := Dtype.float64
  , values := [Cell.null, Cell.null, Cell.int 2, Cell.int 2, Cell.int 2, Cell.int 2,
               Cell.int 2, Cell.int 2, Cell.int 2, Cell.int 2] }

/-- A ten-row table with one 30-percent-null and one 20-percent-null column. -/
def tenRowTable : Table := { nrows := 10, columns := [highNullCol, lowNullCol] }

/-- A numeric-dtype column whose values are lists (never nested: the dtype
gate fires first). -/
def numListCol : Column :=
  { name := "n", dtype := Dtype.int64
  , values := [Cell.list (CellList.cons (Cell.int 1) CellList.nil), Cell.null] }

/-- An object column whose first mapping appears only after the first 3
non-null values (classified non-nested by the sampling cap). -/
def lateNestedCol : Column :=
  { name := "o", dtype := Dtype.obj
  , values := [Cell.str "x", Cell.str "y", Cell.str "z", mapA] }

/-! ### Lemmas about the first-seen key order -/

theorem mem_firstSeenAux : ∀ (l seen : List Cell) (x : Cell),
    x ∈ firstSeenAux seen l ↔ x ∈ l ∧ x ∉ seen
  | [], seen, x => by simp [firstSeenAux]
  | c :: rest, seen, x => by
      by_cases h : c ∈ seen
      · rw [firstSeenAux, if_pos h, mem_firstSeenAux rest seen x]
        constructor
        · rintro ⟨hx, hs⟩
          exact ⟨List.mem_cons_of_mem _ hx, hs⟩
        · rintro ⟨hx, hs⟩
          rcases List.mem_cons.mp hx with hc | hr
          · exact absurd (hc ▸ h) hs
          · exact ⟨hr, hs⟩
      · rw [firstSeenAux, if_neg h]
        constructor
        · intro hx
          rcases List.mem_cons.mp hx with hc | hr
          · subst hc
            exact ⟨List.mem_cons_self _ _, h⟩
          · have hm := (mem_firstSeenAux rest (c :: seen) x).mp hr
            exact ⟨List.mem_cons_of_mem _ hm.1,
              fun hs => hm.2 (List.mem_cons_of_mem _ hs)⟩
        · rintro ⟨hx, hs⟩
          rcases List.mem_cons.mp hx with hc | hr
          · subst hc
            exact List.mem_cons_self _ _
          · by_cases hxc : x = c
            · subst hxc
              exact List.mem_cons_self _ _
            · exact List.mem_cons_of_mem _ ((mem_firstSeenAux rest (c :: seen) x).mpr
                ⟨hr, fun hcs => (List.mem_cons.mp hcs).elim hxc hs⟩)

theorem nodup_firstSeenAux : ∀ (l seen : List Cell), (firstSeenAux seen l).Nodup
  | [], _ => by simp [firstSeenAux]
  | c :: rest, seen => by
      by_cases h : c ∈ seen
      · rw [firstSeenAux, if_pos h]
        exact nodup_firstSeenAux rest seen
      · rw [firstSeenAux, if_neg h]
        refine List.Nodup.cons ?_ (nodup_firstSeenAux rest (c :: seen))
        intro hc
        exact ((mem_firstSeenAux rest (c :: seen) c).mp hc).2 (List.mem_cons_self _ _)

theorem mem_firstSeen (vs : List Cell) (x : Cell) : x ∈ firstSeen vs ↔ x ∈ vs := by
  rw [firstSeen, mem_firstSeenAux]
  simp

theorem nodup_firstSeen (vs : List Cell) : (firstSeen vs).Nodup :=
  nodup_firstSeenAux vs []

/-! ### Lemmas about the stable descending sort -/

theorem mem_insertDesc (x z : Cell × Nat) : ∀ (l : List (Cell × Nat)),
    z ∈ insertDesc x l ↔ z = x ∨ z ∈ l
  | [] => by simp [insertDesc]
  | y :: ys => by
      rw [insertDesc]
      split
      · rw [List.mem_cons, mem_insertDesc x z ys, List.mem_cons]
        tauto
      · simp only [List.mem_cons]

theorem perm_insertDesc (x : Cell × Nat) : ∀ (l : List (Cell × Nat)),
    List.Perm (insertDesc x l) (x :: l)
  | [] => by simp [insertDesc]
  | y :: ys => by
      rw [insertDesc]
      split
      · exact ((perm_insertDesc x ys).cons y).trans (List.Perm.swap x y ys)
      · exact List.Perm.refl _

theorem pairwise_insertDesc (x : Cell × Nat) : ∀ (l : List (Cell × Nat)),
    l.Pairwise (fun a b => b.2 ≤ a.2) →
      (insertDesc x l).Pairwise (fun a b => b.2 ≤ a.2)
  | [], _ => by simp [insertDesc]
  | y :: ys, h => by
      rcases List.pairwise_cons.mp h with ⟨hy, hys⟩
      rw [insertDesc]
      split
      · next hlt =>
        refine List.pairwise_cons.mpr ⟨?_, pairwise_insertDesc x ys hys⟩
        intro z hz
        rcases (mem_insertDesc x z ys).mp hz with rfl | hzys
        · exact Nat.le_of_lt hlt
        · exact hy z hzys
      · next hge =>
        refine List.pairwise_cons.mpr ⟨?_, h⟩
        intro z hz
        rcases List.mem_cons.mp hz with rfl | hzys
        · exact Nat.le_of_not_lt hge
        · exact (hy z hzys).trans (Nat.le_of_not_lt hge)

theorem perm_sortDesc : ∀ (l : List (Cell × Nat)), List.Perm (sortDesc l) l
  | [] => List.Perm.refl _
  | x :: xs => by
      rw [sortDesc]
      exact (perm_insertDesc x (sortDesc xs)).trans ((perm_sortDesc xs).cons x)

theorem pairwise_sortDesc : ∀ (l : List (Cell × Nat)),
    (sortDesc l).Pairwise (fun a b => b.2 ≤ a.2)
  | [] => by simp [sortDesc]
  | x :: xs => by
      rw [sortDesc]
      exact pairwise_insertDesc x (sortDesc xs) (pairwise_sortDesc xs)

theorem filter_insertDesc (x : Cell × Nat) (n : Nat) : ∀ (l : List (Cell × Nat)),
    (insertDesc x l).filter (fun p => p.2 == n)
      = if x.2 = n then x :: l.filter (fun p => p.2 == n)
        else l.filter (fun p => p.2 == n)
  | [] => by
      by_cases hx : x.2 = n <;> simp [insertDesc, hx, List.filter_cons]
  | y :: ys => by
      rw [insertDesc]
      split
      · next hlt =>
        rw [List.filter_cons, filter_insertDesc x n ys]
        by_cases hx : x.2 = n <;> by_cases hy : y.2 = n <;>
          simp [hx, hy, List.filter_cons] <;> omega
      · next hge =>
        rw [List.filter_cons]
        by_cases hx : x.2 = n <;> simp [hx, List.filter_cons]

theorem filter_sortDesc (n : Nat) : ∀ (l : List (Cell × Nat)),
    (sortDesc l).filter (fun p => p.2 == n) = l.filter (fun p => p.2 == n)
  | [] => rfl
  | x :: xs => by
      rw [sortDesc, filter_insertDesc, filter_sortDesc n xs, List.filter_cons]
      by_cases hx : x.2 = n <;> simp [hx]

/-! ### Counting lemmas -/

theorem sum_counts_firstSeen (vs : List Cell) :
    ((firstSeen vs).map (fun k => vs.count k)).sum = vs.length := by
  have hnd : (firstSeen vs).Nodup := nodup_firstSeen vs
  have hfs : (firstSeen vs).toFinset = vs.toFinset := by
    ext a
    simp [List.mem_toFinset, mem_firstSeen]
  calc ((firstSeen vs).map (fun k => vs.count k)).sum
      = (firstSeen vs).toFinset.sum (fun k => vs.count k) :=
        (List.sum_toFinset _ hnd).symm
    _ = vs.toFinset.sum (fun k => vs.count k) := by rw [hfs]
    _ = vs.length := List.sum_toFinset_count_eq_length vs

theorem length_dedup_map_str : ∀ (l : List String),
    ((l.map Cell.str).dedup).length = l.dedup.length
  | [] => rfl
  | a :: l => by
      by_cases h : a ∈ l
      · rw [List.map_cons, List.dedup_cons_of_mem (List.mem_map_of_mem Cell.str h),
          List.dedup_cons_of_mem h]
        exact length_dedup_map_str l
      · have hns : Cell.str a ∉ l.map Cell.str := by
          intro hc
          rcases List.mem_map.mp hc with ⟨b, hb, hba⟩
          cases hba
          exact h hb
        rw [List.map_cons, List.dedup_cons_of_not_mem hns, List.dedup_cons_of_not_mem h,
          List.length_cons, List.length_cons, length_dedup_map_str l]

/-! ### Characterizations of the rational-number threshold tests -/

theorem highNull_iff_ratio (n : Nat) (vs : List Cell) (hn : 0 < n) :
    highNull n vs = true ↔ (1 : ℚ) / 5 < (nullCount vs : ℚ) / (n : ℚ) := by
  have hne : n ≠ 0 := Nat.pos_iff_ne_zero.mp hn
  simp only [highNull, null_percentage, if_neg hne, decide_eq_true_eq]
  constructor <;> intro h <;> linarith

theorem unique_ratio_gt_half_iff (n : Nat) (vs : List Cell) (hn : 0 < n) :
    ((1 : ℚ) / 2 < unique_ratio n vs) ↔ n < 2 * safe_unique_count vs := by
  rw [unique_ratio, if_pos hn]
  have hq : (0 : ℚ) < (n : ℚ) := by exact_mod_cast hn
  rw [div_lt_div_iff (by norm_num) hq, one_mul, mul_comm (safe_unique_count vs : ℚ) 2]
  exact_mod_cast Iff.rfl

theorem uniqueCond_iff (n : Nat) (col : Column) :
    (isNumericDtype col.dtype || decide ((1 : ℚ) / 2 < unique_ratio n col.values)) = true
      ↔ (isNumericDtype col.dtype = true ∨ (0 < n ∧ n < 2 * safe_unique_count col.values)) := by
  rw [Bool.or_eq_true, decide_eq_true_eq]
  by_cases hn : 0 < n
  · rw [unique_ratio_gt_half_iff n col.values hn]
    constructor
    · rintro (h | h)
      · exact Or.inl h
      · exact Or.inr ⟨hn, h⟩
    · rintro (h | ⟨_, h⟩)
      · exact Or.inl h
      · exact Or.inr h
  · rw [unique_ratio, if_neg hn]
    constructor
    · rintro (h | h)
      · exact Or.inl h
      · norm_num at h
    · rintro (h | ⟨h0, _⟩)
      · exact Or.inl h
      · exact absurd h0 hn

theorem colCategory_eq_nested_iff (n : Nat) (col : Column) :
    colCategory n col = Category.nested ↔ is_nested_col col = true := by
  rw [colCategory]
  split
  · next h => simp [h]
  · next h =>
    split <;> simp [h]

theorem colCategory_eq_unique_iff (n : Nat) (col : Column) :
    colCategory n col = Category.unique ↔
      (is_nested_col col = false
        ∧ (isNumericDtype col.dtype = true ∨ (0 < n ∧ n < 2 * safe_unique_count col.values))) := by
  rw [colCategory]
  split
  · next h => simp [h]
  · next h =>
    have h' : is_nested_col col = false := by simpa using h
    split
    · next hc =>
      simp only [h', true_and]
      exact iff_of_true trivial ((uniqueCond_iff n col).mp hc)
    · next hc =>
      simp only [h', true_and]
      exact iff_of_false (by simp) (fun hx => hc ((uniqueCond_iff n col).mpr hx))

theorem colCategory_eq_categorical_iff (n : Nat) (col : Column) :
    colCategory n col = Category.categorical ↔
      (is_nested_col col = false ∧ isNumericDtype col.dtype = false
        ∧ ¬(0 < n ∧ n < 2 * safe_unique_count col.values)) := by
  rw [colCategory]
  split
  · next h => simp [h]
  · next h =>
    have h' : is_nested_col col = false := by simpa using h
    split
    · next hc =>
      rcases (uniqueCond_iff n col).mp hc with hnum | hrat
      · simp [hnum]
      · simp [hrat]
    · next hc =>
      have h2 : ¬(isNumericDtype col.dtype = true ∨ (0 < n ∧ n < 2 * safe_unique_count col.values)) :=
        fun hx => hc ((uniqueCond_iff n col).mpr hx)
      rcases not_or.mp h2 with ⟨ha, hb⟩
      exact iff_of_true rfl ⟨h', by simpa using ha, hb⟩

/-! ### Bounds for the numeric statistics -/

theorem foldl_min_le_init : ∀ (xs : List ℚ) (a : ℚ), xs.foldl min a ≤ a
  | [], a => le_refl a
  | x :: xs, a => by
      rw [List.foldl_cons]
      exact (foldl_min_le_init xs (min a x)).trans (min_le_left a x)

theorem foldl_min_le_mem : ∀ (xs : List ℚ) (a x : ℚ), x ∈ xs → xs.foldl min a ≤ x
  | [], _, _, h => absurd h (List.not_mem_nil _)
  | y :: ys, a, x, h => by
      rw [List.foldl_cons]
      rcases List.mem_cons.mp h with rfl | hx
      · exact (foldl_min_le_init ys (min a x)).trans (min_le_right a x)
      · exact foldl_min_le_mem ys (min a y) x hx

theorem foldl_min_choice : ∀ (xs : List ℚ) (a : ℚ), xs.foldl min a = a ∨ xs.foldl min a ∈ xs
  | [], a => Or.inl rfl
  | x :: xs, a => by
      rw [List.foldl_cons]
      rcases foldl_min_choice xs (min a x) with h | h
      · rcases min_choice a x with h2 | h2
        · exact Or.inl (by rw [h, h2])
        · exact Or.inr (by rw [h, h2]; exact List.mem_cons_self _ _)
      · exact Or.inr (List.mem_cons_of_mem _ h)

theorem init_le_foldl_max : ∀ (xs : List ℚ) (a : ℚ), a ≤ xs.foldl max a
  | [], a => le_refl a
  | x :: xs, a => by
      rw [List.foldl_cons]
      exact (le_max_left a x).trans (init_le_foldl_max xs (max a x))

theorem mem_le_foldl_max : ∀ (xs : List ℚ) (a x : ℚ), x ∈ xs → x ≤ xs.foldl max a
  | [], _, _, h => absurd h (List.not_mem_nil _)
  | y :: ys, a, x, h => by
      rw [List.foldl_cons]
      rcases List.mem_cons.mp h with rfl | hx
      · exact (le_max_right a x).trans (init_le_foldl_max ys (max a x))
      · exact mem_le_foldl_max ys (max a y) x hx

theorem foldl_max_choice : ∀ (xs : List ℚ) (a : ℚ), xs.foldl max a = a ∨ xs.foldl max a ∈ xs
  | [], a => Or.inl rfl
  | x :: xs, a => by
      rw [List.foldl_cons]
      rcases foldl_max_choice xs (max a x) with h | h
      · rcases max_choice a x with h2 | h2
        · exact Or.inl (by rw [h, h2])
        · exact Or.inr (by rw [h, h2]; exact List.mem_cons_self _ _)
      · exact Or.inr (List.mem_cons_of_mem _ h)

theorem ratMin_le (l : List ℚ) (x : ℚ) (hx : x ∈ l) : ratMin l ≤ x := by
  cases l with
  | nil => exact absurd hx (List.not_mem_nil _)
  | cons y ys =>
      rw [ratMin]
      rcases List.mem_cons.mp hx with rfl | h
      · exact foldl_min_le_init ys x
      · exact foldl_min_le_mem ys y x h

theorem le_ratMax (l : List ℚ) (x : ℚ) (hx : x ∈ l) : x ≤ ratMax l := by
  cases l with
  | nil => exact absurd hx (List.not_mem_nil _)
  | cons y ys =>
      rw [ratMax]
      rcases List.mem_cons.mp hx with rfl | h
      · exact init_le_foldl_max ys x
      · exact mem_le_foldl_max ys y x h

theorem ratMin_mem (l : List ℚ) (h : l ≠ []) : ratMin l ∈ l := by
  cases l with
  | nil => exact absurd rfl h
  | cons y ys =>
      rw [ratMin]
      rcases foldl_min_choice ys y with h2 | h2
      · rw [h2]; exact List.mem_cons_self _ _
      · exact List.mem_cons_of_mem _ h2

theorem ratMax_mem (l : List ℚ) (h : l ≠ []) : ratMax l ∈ l := by
  cases l with
  | nil => exact absurd rfl h
  | cons y ys =>
      rw [ratMax]
      rcases foldl_max_choice ys y with h2 | h2
      · rw [h2]; exact List.mem_cons_self _ _
      · exact List.mem_cons_of_mem _ h2

theorem ratMean_bounds (l : List ℚ) (h : l ≠ []) :
    ratMin l ≤ ratMean l ∧ ratMean l ≤ ratMax l := by
  have hlpos : 0 < l.length := List.length_pos.mpr h
  have hlq : (0 : ℚ) < (l.length : ℚ) := by exact_mod_cast hlpos
  constructor
  · rw [ratMean, le_div_iff hlq]
    calc ratMin l * (l.length : ℚ) = l.length • ratMin l := by
          rw [nsmul_eq_mul, mul_comm]
      _ ≤ l.sum := List.card_nsmul_le_sum l _ (fun x hx => ratMin_le l x hx)
  · rw [ratMean, div_le_iff hlq]
    calc l.sum ≤ l.length • ratMax l :=
          List.sum_le_card_nsmul l _ (fun x hx => le_ratMax l x hx)
      _ = ratMax l * (l.length : ℚ) := by rw [nsmul_eq_mul, mul_comm]

theorem ratMedian_bounds (l : List ℚ) (h : l ≠ []) :
    ratMin l ≤ ratMedian l ∧ ratMedian l ≤ ratMax l := by
  have hperm : List.Perm (l.insertionSort (· ≤ ·)) l :=
    List.perm_insertionSort (α := ℚ) (· ≤ ·) l
  have hlen : (l.insertionSort (· ≤ ·)).length = l.length := hperm.length_eq
  have hlpos : 0 < l.length := List.length_pos.mpr h
  have hmem : ∀ i, i < (l.insertionSort (· ≤ ·)).length →
      (l.insertionSort (· ≤ ·)).getD i 0 ∈ l := by
    intro i hi
    rw [List.getD_eq_getElem?_getD, List.getElem?_eq_getElem hi, Option.getD_some]
    exact hperm.subset (List.getElem_mem hi)
  simp only [ratMedian]
  by_cases hodd : l.length % 2 = 1
  · rw [if_pos hodd]
    have hi : l.length / 2 < (l.insertionSort (· ≤ ·)).length := by
      rw [hlen]; omega
    exact ⟨ratMin_le l _ (hmem _ hi), le_ratMax l _ (hmem _ hi)⟩
  · rw [if_neg hodd]
    have hi1 : l.length / 2 - 1 < (l.insertionSort (· ≤ ·)).length := by
      rw [hlen]; omega
    have hi2 : l.length / 2 < (l.insertionSort (· ≤ ·)).length := by
      rw [hlen]; omega
    have m1 := hmem _ hi1
    have m2 := hmem _ hi2
    constructor
    · have b1 := ratMin_le l _ m1
      have b2 := ratMin_le l _ m2
      linarith
    · have b1 := le_ratMax l _ m1
      have b2 := le_ratMax l _ m2
      linarith

/-! ### The two counting paths of `safe_unique_count` -/

theorem astype_str_no_unhashable (vs : List Cell) :
    (astype_str vs).any isDictOrList = false := by
  rw [astype_str, List.any_eq_false]
  intro c hc
  rcases List.mem_map.mp hc with ⟨d, _, rfl⟩
  simp [isDictOrList]

theorem dropna_astype (vs : List Cell) : dropna (astype_str vs) = astype_str vs := by
  rw [dropna, List.filter_eq_self]
  intro c hc
  rcases List.mem_map.mp hc with ⟨d, _, rfl⟩
  rfl

theorem safe_unique_count_direct (vs : List Cell) (h : vs.any isDictOrList = false) :
    safe_unique_count vs = (dropna vs).dedup.length := by
  simp only [safe_unique_count, nunique, h, Bool.false_eq_true, if_false]

theorem safe_unique_count_fallback (vs : List Cell) (h : vs.any isDictOrList = true) :
    safe_unique_count vs = ((vs.map pyStr).dedup).length := by
  simp only [safe_unique_count, nunique, h, if_true, astype_str_no_unhashable,
    Bool.false_eq_true, if_false, dropna_astype, Option.getD_some]
  have hmap : astype_str vs = (vs.map pyStr).map Cell.str := by
    rw [astype_str, List.map_map]
    rfl
  rw [hmap, length_dedup_map_str]

theorem safe_unique_count_le (vs : List Cell) : safe_unique_count vs ≤ vs.length := by
  cases h : vs.any isDictOrList
  · rw [safe_unique_count_direct vs h]
    exact ((List.dedup_sublist _).length_le).trans (List.length_filter_le _ _)
  · rw [safe_unique_count_fallback vs h]
    calc ((vs.map pyStr).dedup).length ≤ (vs.map pyStr).length :=
          (List.dedup_sublist _).length_le
      _ = vs.length := List.length_map _ _

/-! ### Properties of `value_counts` and `safe_value_counts` -/

theorem value_counts_pairwise (vs : List Cell) :
    (value_counts vs).Pairwise (fun a b => b.2 ≤ a.2) :=
  pairwise_sortDesc _

theorem value_counts_perm (vs : List Cell) :
    List.Perm (value_counts vs) ((firstSeen vs).map (fun c => (c, vs.count c))) :=
  perm_sortDesc _

theorem value_counts_keys_nodup (vs : List Cell) :
    ((value_counts vs).map Prod.fst).Nodup := by
  have hp : List.Perm ((value_counts vs).map Prod.fst)
      (((firstSeen vs).map (fun c => (c, vs.count c))).map Prod.fst) :=
    (value_counts_perm vs).map Prod.fst
  rw [hp.nodup_iff, List.map_map]
  have hid : (Prod.fst ∘ fun c => (c, List.count c vs)) = id := rfl
  rw [hid, List.map_id]
  exact nodup_firstSeen vs

theorem value_counts_mem (vs : List Cell) (p : Cell × Nat) (hp : p ∈ value_counts vs) :
    p.2 = vs.count p.1 ∧ p.1 ∈ vs := by
  have hm := (value_counts_perm vs).mem_iff.mp hp
  rcases List.mem_map.mp hm with ⟨c, hc, rfl⟩
  exact ⟨rfl, (mem_firstSeen vs c).mp hc⟩

theorem value_counts_sum (vs : List Cell) :
    ((value_counts vs).map Prod.snd).sum = vs.length := by
  have hp : List.Perm ((value_counts vs).map Prod.snd)
      (((firstSeen vs).map (fun c => (c, vs.count c))).map Prod.snd) :=
    (value_counts_perm vs).map Prod.snd
  rw [hp.sum_eq, List.map_map]
  exact sum_counts_firstSeen vs

theorem value_counts_null_mem (vs : List Cell) :
    (Cell.null, vs.count Cell.null) ∈ value_counts vs ↔ Cell.null ∈ vs := by
  rw [(value_counts_perm vs).mem_iff]
  constructor
  · intro h
    rcases List.mem_map.mp h with ⟨c, hc, heq⟩
    have hc1 : c = Cell.null := congrArg Prod.fst heq
    rw [hc1] at hc
    exact (mem_firstSeen vs Cell.null).mp hc
  · intro h
    exact List.mem_map_of_mem _ ((mem_firstSeen vs Cell.null).mpr h)

theorem value_counts_filter_stable (vs : List Cell) (n : Nat) :
    (value_counts vs).filter (fun p => p.2 == n)
      = ((firstSeen vs).map (fun c => (c, vs.count c))).filter (fun p => p.2 == n) :=
  filter_sortDesc n _

theorem safe_value_counts_eq (vs : List Cell) :
    safe_value_counts vs = value_counts (svcSeries vs) := by
  rw [safe_value_counts, svcSeries]
  split
  · rfl
  · rfl

theorem svcSeries_length (vs : List Cell) : (svcSeries vs).length = vs.length := by
  rw [svcSeries]
  split
  · exact List.length_map _ _
  · rfl

/-! ### Field preservation through the category branches -/

theorem enrichCol_base_fields (n : Nat) (col : Column) :
    (enrichCol n col).name = col.name
    ∧ (enrichCol n col).dtype = col.dtype
    ∧ (enrichCol n col).null_count = nullCount col.values
    ∧ (enrichCol n col).null_percentage = null_percentage n col.values
    ∧ (enrichCol n col).unique_count = safe_unique_count col.values := by
  cases h : colCategory n col
  case nested => simp [enrichCol, h, baseColInfo]
  case unique =>
    simp only [enrichCol, h, baseColInfo]
    split <;> simp
  case categorical => simp [enrichCol, h, baseColInfo]

theorem enrichCol_value_counts_eq (n : Nat) (col : Column)
    (h : colCategory n col = Category.categorical) :
    (enrichCol n col).value_counts = some (safe_value_counts col.values) := by
  simp only [enrichCol, h]

theorem enrichCol_stats_none (n : Nat) (col : Column)
    (h : colCategory n col = Category.unique) (hd : dropna col.values = []) :
    (enrichCol n col).stats = none := by
  simp only [enrichCol, h, hd, List.isEmpty_nil, Bool.not_true, Bool.and_false,
    Bool.false_eq_true, if_false, baseColInfo]

theorem enrichCol_stats_some (n : Nat) (col : Column)
    (h : colCategory n col = Category.unique) (hnum : isNumericDtype col.dtype = true)
    (hd : dropna col.values ≠ []) :
    (enrichCol n col).stats = some
      { min := ratMin ((dropna col.values).map cellToRat)
      , max := ratMax ((dropna col.values).map cellToRat)
      , mean := ratMean ((dropna col.values).map cellToRat)
      , median := ratMedian ((dropna col.values).map cellToRat) } := by
  have hie : (dropna col.values).isEmpty = false := by
    cases hdp : dropna col.values
    · exact absurd hdp hd
    · rfl
  simp only [enrichCol, h, hnum, hie, Bool.not_false, Bool.and_true, if_true]

theorem highNull_congr (n : Nat) (vs vs' : List Cell)
    (h : null_percentage n vs = null_percentage n vs') :
    highNull n vs = highNull n vs' := by
  simp only [highNull, h]

theorem numeric_not_nested (col : Column) (h : isNumericDtype col.dtype = true) :
    is_nested_col col = false := by
  rw [is_nested_col]
  cases hd : col.dtype <;> simp_all [isNumericDtype]

theorem numeric_colCategory (n : Nat) (col : Column) (h : isNumericDtype col.dtype = true) :
    colCategory n col = Category.unique := by
  rw [colCategory, numeric_not_nested col h]
  simp [h]

/-! ### Partition of the columns into the three category lists -/

theorem length_filter_three {α : Type} (p q r : α → Bool) (l : List α)
    (h : ∀ x ∈ l, (p x = true ∧ q x = false ∧ r x = false)
        ∨ (p x = false ∧ q x = true ∧ r x = false)
        ∨ (p x = false ∧ q x = false ∧ r x = true)) :
    (l.filter p).length + (l.filter q).length + (l.filter r).length = l.length := by
  induction l with
  | nil => rfl
  | cons a l ih =>
      have ha := h a (List.mem_cons_self _ _)
      have hrest := ih (fun x hx => h x (List.mem_cons_of_mem _ hx))
      rcases ha with ⟨h1, h2, h3⟩ | ⟨h1, h2, h3⟩ | ⟨h1, h2, h3⟩ <;>
        simp only [List.filter_cons, h1, h2, h3, Bool.false_eq_true, if_false, if_true,
          List.length_cons] <;>
        omega

/-! ### The candidate accumulation loop of `detect_coordinate_columns` -/

theorem coordLoop_step (acc : List String) (n : String) (rest : List String) :
    coordLoop acc (n :: rest) =
      coordLoop (if (latSubMatch n || lonSubMatch n) && !acc.contains n
                 then acc ++ [n] else acc) rest := by
  rw [coordLoop]
  by_cases hlat : latSubMatch n = true <;> by_cases hmem : acc.contains n = true
  · have h1 : (latSubMatch n && !acc.contains n) = false := by rw [hlat, hmem]; rfl
    have h2 : ((latSubMatch n || lonSubMatch n) && !acc.contains n) = false := by
      rw [hlat, hmem]; rfl
    rw [h1, h2]
    simp only [Bool.false_eq_true, if_false]
    have h3 : (lonSubMatch n && !acc.contains n) = false := by
      rw [hmem]
      exact Bool.and_false _
    rw [h3]
    simp only [Bool.false_eq_true, if_false]
  · have hm' : acc.contains n = false := by simpa using hmem
    have h1 : (latSubMatch n && !acc.contains n) = true := by rw [hlat, hm']; rfl
    have h2 : ((latSubMatch n || lonSubMatch n) && !acc.contains n) = true := by
      rw [hlat, hm']; rfl
    rw [h1, h2]
    simp only [if_true]
    have h3 : ((acc ++ [n]).contains n) = true := by
      have : n ∈ acc ++ [n] := List.mem_append_right _ (List.mem_singleton_self n)
      exact List.elem_eq_true_of_mem this
    rw [h3]
    simp
  · have hl' : latSubMatch n = false := by simpa using hlat
    have h1 : (latSubMatch n && !acc.contains n) = false := by rw [hl']; rfl
    rw [h1]
    simp only [Bool.false_eq_true, if_false]
    have h3 : (lonSubMatch n && !acc.contains n) = false := by
      rw [hmem]
      exact Bool.and_false _
    have h2 : ((latSubMatch n || lonSubMatch n) && !acc.contains n) = false := by
      rw [hmem]
      exact Bool.and_false _
    rw [h3, h2]
  · have hl' : latSubMatch n = false := by simpa using hlat
    have hm' : acc.contains n = false := by simpa using hmem
    have h1 : (latSubMatch n && !acc.contains n) = false := by rw [hl']; rfl
    rw [h1]
    simp only [Bool.false_eq_true, if_false]
    have h2 : ((latSubMatch n || lonSubMatch n) && !acc.contains n)
        = (lonSubMatch n && !acc.contains n) := by
      rw [hl', hm']
      rfl
    rw [h2]

theorem coordLoop_eq : ∀ (ns acc : List String), ns.Nodup →
    coordLoop acc ns
      = acc ++ ns.filter (fun m => (latSubMatch m || lonSubMatch m) && !acc.contains m)
  | [], acc, _ => by simp [coordLoop]
  | n :: rest, acc, hnd => by
      rcases List.nodup_cons.mp hnd with ⟨hn, hrest⟩
      rw [coordLoop_step, coordLoop_eq rest _ hrest, List.filter_cons]
      by_cases hc : ((latSubMatch n || lonSubMatch n) && !acc.contains n) = true
      · rw [if_pos hc, if_pos hc]
        have hfc : rest.filter (fun m => (latSubMatch m || lonSubMatch m)
              && !(acc ++ [n]).contains m)
            = rest.filter (fun m => (latSubMatch m || lonSubMatch m) && !acc.contains m) := by
          apply List.filter_congr
          intro m hm
          have hmn : m ≠ n := fun he => hn (he ▸ hm)
          have hca : (acc ++ [n]).contains m = acc.contains m := by
            simp only [List.contains, List.elem_eq_mem, List.mem_append, List.mem_singleton]
            simp [hmn]
          rw [hca]
        rw [hfc, List.append_cons, List.append_assoc]
        simp
      · rw [if_neg hc, if_neg hc]

/-! ### Claim theorems -/

/-- C1 (amended): when distinct-value counting fails on unhashable values,
`safe_unique_count` counts the distinct string renderings of ALL values —
the null rendering included — so the 5-value column with 2 distinct
mappings and 3 nulls reports 3, not the 2 the claim asserts. -/
theorem C1_string_fallback (vs : List Cell) (h : vs.any isDictOrList = true) :
    safe_unique_count vs = ((vs.map pyStr).dedup).length
    ∧ ∀ (n : Nat) (col : Column), col.values = vs →
        (enrichCol n col).unique_count = ((vs.map pyStr).dedup).length := by
  refine ⟨safe_unique_count_fallback vs h, ?_⟩
  intro n col hv
  rw [(enrichCol_base_fields n col).2.2.2.2, hv, safe_unique_count_fallback vs h]

/-- C1 witness: the fallback equation instantiated at the concrete
5-value column (two distinct mappings, three nulls). -/
theorem C1_string_fallback_witness :
    (metaCol.values.any isDictOrList = true)
    ∧ (safe_unique_count metaCol.values = ((metaCol.values.map pyStr).dedup).length
      ∧ ∀ (n : Nat) (col : Column), col.values = metaCol.values →
          (enrichCol n col).unique_count = ((metaCol.values.map pyStr).dedup).length) :=
  ⟨by decide, C1_string_fallback metaCol.values (by decide)⟩

/-- C1 counterexample: profiling the 5-value column (2 distinct mappings,
3 nulls) reports `unique_count = 3` — the shared null rendering is a third
distinct string — while the claim asserts 2. -/
theorem C1_cx :
    ((analyze_data metaTable plainInfo).nested_fields.map ColInfo.unique_count = [3])
    ∧ (3 : Nat) ≠ 2 := ⟨by decide, by decide⟩

/-- C2 (amended): for every column of a rectangular table with at least
one row, the stored percentage is `null_count / row_count * 100` and the
ratio `null_count / row_count` lies in `[0, 1]`; every profile in the
three category lists arises from a column of the table.  (At zero rows
the source stores the NaN of a `0 / 0` — modelled `none` — rather than
the 0 the claim asserts; see the counterexample.) -/
theorem C2_null_ratio (t : Table) (si : SpatialInfo) (hrect : Rectangular t)
    (hr : 0 < t.nrows) :
    (∀ col ∈ t.columns,
        (enrichCol t.nrows col).null_percentage
            = some ((nullCount col.values : ℚ) / (t.nrows : ℚ) * 100)
        ∧ 0 ≤ (nullCount col.values : ℚ) / (t.nrows : ℚ)
        ∧ (nullCount col.values : ℚ) / (t.nrows : ℚ) ≤ 1)
    ∧ (∀ info ∈ (analyze_data t si).nested_fields
          ++ ((analyze_data t si).unique_fields ++ (analyze_data t si).categorical_fields),
        ∃ col ∈ t.columns, info = enrichCol t.nrows col) := by
  constructor
  · intro col hc
    have hne : t.nrows ≠ 0 := Nat.pos_iff_ne_zero.mp hr
    have hq : (0 : ℚ) < (t.nrows : ℚ) := by exact_mod_cast hr
    refine ⟨?_, ?_, ?_⟩
    · rw [(enrichCol_base_fields t.nrows col).2.2.2.1, null_percentage, if_neg hne]
    · positivity
    · rw [div_le_one hq]
      have hcount : nullCount col.values ≤ t.nrows := by
        rw [← hrect col hc]
        exact List.length_filter_le _ _
      exact_mod_cast hcount
  · intro info hinfo
    simp only [analyze_data] at hinfo
    rcases List.mem_append.mp hinfo with hinfo | hinfo
    · rcases List.mem_map.mp hinfo with ⟨col, hcol, rfl⟩
      exact ⟨col, (List.mem_filter.mp hcol).1, rfl⟩
    · rcases List.mem_append.mp hinfo with hinfo | hinfo <;>
      · rcases List.mem_map.mp hinfo with ⟨col, hcol, rfl⟩
        exact ⟨col, (List.mem_filter.mp hcol).1, rfl⟩

/-- C2 witness: the ratio bounds instantiated at the demo table's id
column. -/
theorem C2_null_ratio_witness :
    Rectangular demoTable
    ∧ 0 < demoTable.nrows
    ∧ ((enrichCol demoTable.nrows idCol).null_percentage
          = some ((nullCount idCol.values : ℚ) / (demoTable.nrows : ℚ) * 100)
        ∧ 0 ≤ (nullCount idCol.values : ℚ) / (demoTable.nrows : ℚ)
        ∧ (nullCount idCol.values : ℚ) / (demoTable.nrows : ℚ) ≤ 1) :=
  ⟨by decide, by decide,
    (C2_null_ratio demoTable plainInfo (by decide) (by decide)).1 idCol (by decide)⟩

/-- C2 counterexample: for a zero-row table the profile's percentage field
is the modelled NaN (`none`), not `some 0` — the claim's "defined as 0"
does not hold on the code. -/
theorem C2_cx :
    ((analyze_data zeroRowTable plainInfo).unique_fields.map ColInfo.null_percentage = [none])
    ∧ (none : Option ℚ) ≠ some 0 := ⟨by decide, by decide⟩

/-- C3: the three category lists partition the columns — their lengths sum
to the column count — and each column's category is decided by the
`nested` over `unique` over `categorical` priority chain, so every column
belongs to exactly one group. -/
theorem C3_partition (t : Table) (si : SpatialInfo) :
    ((analyze_data t si).nested_fields.length + (analyze_data t si).unique_fields.length
        + (analyze_data t si).categorical_fields.length = (analyze_data t si).total_columns)
    ∧ ∀ col ∈ t.columns,
        (colCategory t.nrows col = Category.nested ↔ is_nested_col col = true)
        ∧ (colCategory t.nrows col = Category.unique ↔
            (is_nested_col col = false ∧ (isNumericDtype col.dtype = true
              ∨ (0 < t.nrows ∧ t.nrows < 2 * safe_unique_count col.values))))
        ∧ (colCategory t.nrows col = Category.categorical ↔
            (is_nested_col col = false ∧ isNumericDtype col.dtype = false
              ∧ ¬(0 < t.nrows ∧ t.nrows < 2 * safe_unique_count col.values)))
        ∧ (colCategory t.nrows col = Category.nested
            ∨ colCategory t.nrows col = Category.unique
            ∨ colCategory t.nrows col = Category.categorical) := by
  constructor
  · simp only [analyze_data, List.length_map]
    exact length_filter_three _ _ _ t.columns (fun col _ => by
      cases h : colCategory t.nrows col
      · exact Or.inl ⟨by simp [h], by simp [h], by simp [h]⟩
      · exact Or.inr (Or.inl ⟨by simp [h], by simp [h], by simp [h]⟩)
      · exact Or.inr (Or.inr ⟨by simp [h], by simp [h], by simp [h]⟩))
  · intro col _
    refine ⟨colCategory_eq_nested_iff _ _, colCategory_eq_unique_iff _ _,
      colCategory_eq_categorical_iff _ _, ?_⟩
    cases h : colCategory t.nrows col
    · exact Or.inl rfl
    · exact Or.inr (Or.inl rfl)
    · exact Or.inr (Or.inr rfl)

/-- C3 witness: the partition equation on the demo table, plus the
categorical characterization at its city column. -/
theorem C3_partition_witness :
    ((analyze_data demoTable plainInfo).nested_fields.length
        + (analyze_data demoTable plainInfo).unique_fields.length
        + (analyze_data demoTable plainInfo).categorical_fields.length
        = (analyze_data demoTable plainInfo).total_columns)
    ∧ (colCategory demoTable.nrows cityCol = Category.categorical ↔
        (is_nested_col cityCol = false ∧ isNumericDtype cityCol.dtype = false
          ∧ ¬(0 < demoTable.nrows
              ∧ demoTable.nrows < 2 * safe_unique_count cityCol.values))) :=
  ⟨(C3_partition demoTable plainInfo).1,
   ((C3_partition demoTable plainInfo).2 cityCol (by decide)).2.2.1⟩

/-- C4 (amended): with distinct column names and a non-spatial load, the
candidate list is the exact-name matches in column order followed by the
substring-only matches in column order — not globally in table column
order — with each matching column exactly once; membership is exact-name
or substring match. -/
theorem C4_coordinate_candidates (t : Table) (si : SpatialInfo)
    (hnd : (t.columns.map Column.name).Nodup) (hs : si.is_spatial = false) :
    ((analyze_data t si).coordinate_candidates
        = (t.columns.map Column.name).filter exactCoordMatch
          ++ (t.columns.map Column.name).filter
              (fun m => (latSubMatch m || lonSubMatch m) && !exactCoordMatch m))
    ∧ (analyze_data t si).coordinate_candidates.Nodup
    ∧ (∀ m, m ∈ (analyze_data t si).coordinate_candidates ↔
        (m ∈ t.columns.map Column.name
          ∧ (exactCoordMatch m || (latSubMatch m || lonSubMatch m)) = true)) := by
  have hcand : (analyze_data t si).coordinate_candidates
      = detect_coordinate_columns t.columns := by
    simp only [analyze_data, hs, Bool.false_eq_true, if_false]
  have hdet : detect_coordinate_columns t.columns
      = (t.columns.map Column.name).filter exactCoordMatch
        ++ (t.columns.map Column.name).filter
            (fun m => (latSubMatch m || lonSubMatch m)
              && !((t.columns.map Column.name).filter exactCoordMatch).contains m) := by
    rw [detect_coordinate_columns]
    exact coordLoop_eq (t.columns.map Column.name) _ hnd
  have hfc : (t.columns.map Column.name).filter
        (fun m => (latSubMatch m || lonSubMatch m)
          && !((t.columns.map Column.name).filter exactCoordMatch).contains m)
      = (t.columns.map Column.name).filter
          (fun m => (latSubMatch m || lonSubMatch m) && !exactCoordMatch m) := by
    apply List.filter_congr
    intro m hm
    have hcm : ((t.columns.map Column.name).filter exactCoordMatch).contains m
        = exactCoordMatch m := by
      simp only [List.contains, List.elem_eq_mem, List.mem_filter]
      cases hx : exactCoordMatch m
      · simp [hx]
      · simp [hx, hm]
    rw [hcm]
  rw [hcand, hdet, hfc]
  refine ⟨rfl, ?_, ?_⟩
  · rw [List.nodup_append]
    refine ⟨hnd.filter _, hnd.filter _, ?_⟩
    intro m hm1 hm2
    have h1 := (List.mem_filter.mp hm1).2
    have h2 := (List.mem_filter.mp hm2).2
    rw [Bool.and_eq_true] at h2
    rw [h1] at h2
    simpa using h2.2
  · intro m
    rw [List.mem_append, List.mem_filter, List.mem_filter]
    constructor
    · rintro (⟨hm, hx⟩ | ⟨hm, hx⟩)
      · exact ⟨hm, by rw [hx]; rfl⟩
      · rw [Bool.and_eq_true] at hx
        refine ⟨hm, ?_⟩
        rw [hx.1]
        exact Bool.or_true _
    · rintro ⟨hm, hx⟩
      cases hex : exactCoordMatch m
      · right
        refine ⟨hm, ?_⟩
        rw [Bool.and_eq_true]
        refine ⟨?_, rfl⟩
        rw [hex] at hx
        simpa using hx
      · left
        exact ⟨hm, rfl⟩

/-- C4 witness: the characterization instantiated at the spec's own
example table `Latitude, Lng, name, value`. -/
theorem C4_coordinate_candidates_witness :
    ((coordTable.columns.map Column.name).Nodup)
    ∧ ((analyze_data coordTable plainInfo).coordinate_candidates
        = (coordTable.columns.map Column.name).filter exactCoordMatch
          ++ (coordTable.columns.map Column.name).filter
              (fun m => (latSubMatch m || lonSubMatch m) && !exactCoordMatch m))
    ∧ (analyze_data coordTable plainInfo).coordinate_candidates.Nodup :=
  ⟨by decide,
   (C4_coordinate_candidates coordTable plainInfo (by decide) rfl).1,
   (C4_coordinate_candidates coordTable plainInfo (by decide) rfl).2.1⟩

/-- C4 counterexample: for columns named `my_lat_col, lat` the candidate
list is `[lat, my_lat_col]` — the exact match first — and not the
in-table-column-order list of matching names the claim asserts. -/
theorem C4_cx :
    (analyze_data latTable plainInfo).coordinate_candidates = ["lat", "my_lat_col"]
    ∧ (analyze_data latTable plainInfo).coordinate_candidates
        ≠ (latTable.columns.map Column.name).filter
            (fun m => exactCoordMatch m || (latSubMatch m || lonSubMatch m)) :=
  ⟨by decide, by decide⟩

/-- C5 (amended): a categorical column's `value_counts` field maps each
raw distinct value of the counted series (stringified only on the
unhashable fallback path; null kept as its own key, rendered "null" only
by the presentation layer) to its occurrence count, ordered by descending
count with ties in first-seen order; the counts sum to the row count and
the null bucket is never dropped. -/
theorem C5_value_counts (t : Table) (si : SpatialInfo) (hrect : Rectangular t) :
    (∀ col ∈ t.columns, colCategory t.nrows col = Category.categorical →
        (enrichCol t.nrows col).value_counts = some (safe_value_counts col.values)
        ∧ enrichCol t.nrows col ∈ (analyze_data t si).categorical_fields
        ∧ ((safe_value_counts col.values).map Prod.snd).sum = t.nrows)
    ∧ (∀ vs : List Cell,
        (safe_value_counts vs).Pairwise (fun a b => b.2 ≤ a.2)
        ∧ ((safe_value_counts vs).map Prod.fst).Nodup
        ∧ (∀ p ∈ safe_value_counts vs, p.2 = (svcSeries vs).count p.1 ∧ p.1 ∈ svcSeries vs)
        ∧ (vs.any isDictOrList = false →
            ((Cell.null, vs.count Cell.null) ∈ safe_value_counts vs ↔ Cell.null ∈ vs))
        ∧ (∀ n : Nat, (safe_value_counts vs).filter (fun p => p.2 == n)
            = ((firstSeen (svcSeries vs)).map (fun c => (c, (svcSeries vs).count c))).filter
                (fun p => p.2 == n))) := by
  constructor
  · intro col hc hcat
    refine ⟨enrichCol_value_counts_eq t.nrows col hcat, ?_, ?_⟩
    · simp only [analyze_data]
      refine List.mem_map_of_mem _ (List.mem_filter.mpr ⟨hc, ?_⟩)
      rw [hcat]
      rfl
    · rw [safe_value_counts_eq, value_counts_sum, svcSeries_length]
      exact hrect col hc
  · intro vs
    rw [safe_value_counts_eq]
    refine ⟨value_counts_pairwise _, value_counts_keys_nodup _, ?_, ?_, ?_⟩
    · intro p hp
      exact value_counts_mem _ p hp
    · intro hno
      have hsv : svcSeries vs = vs := by simp [svcSeries, hno]
      rw [hsv]
      exact value_counts_null_mem vs
    · intro n
      exact value_counts_filter_stable _ n

/-- C5 witness: the amended properties instantiated at the demo table's
categorical city column. -/
theorem C5_value_counts_witness :
    Rectangular demoTable
    ∧ colCategory demoTable.nrows cityCol = Category.categorical
    ∧ ((enrichCol demoTable.nrows cityCol).value_counts
          = some (safe_value_counts cityCol.values)
        ∧ enrichCol demoTable.nrows cityCol
            ∈ (analyze_data demoTable plainInfo).categorical_fields
        ∧ ((safe_value_counts cityCol.values).map Prod.snd).sum = demoTable.nrows) := by
  have hcat : colCategory demoTable.nrows cityCol = Category.categorical :=
    (colCategory_eq_categorical_iff demoTable.nrows cityCol).mpr (by decide)
  exact ⟨by decide, hcat,
    (C5_value_counts demoTable plainInfo (by decide)).1 cityCol (by decide) hcat⟩

/-- C5 counterexample: a categorical column holding `a, a, a, null` stores
the raw key `Cell.null` (and the raw string cells), not the literal token
`"null"` — the keys of the stored mapping are not the stringified values
with a `"null"` sentinel that the claim asserts. -/
theorem C5_cx :
    colCategory 4 cityNullCol = Category.categorical
    ∧ (enrichCol 4 cityNullCol).value_counts
        = some [(Cell.str "a", 3), (Cell.null, 1)]
    ∧ Cell.null ≠ Cell.str "null" := by
  have hcat : colCategory 4 cityNullCol = Category.categorical :=
    (colCategory_eq_categorical_iff 4 cityNullCol).mpr (by decide)
  refine ⟨hcat, ?_, by decide⟩
  rw [enrichCol_value_counts_eq 4 cityNullCol hcat]
  have hval : safe_value_counts cityNullCol.values
      = [(Cell.str "a", 3), (Cell.null, 1)] := by decide
  rw [hval]

/-- C6: with at least one row, a column's base profile sits in the
high-null list exactly when its null ratio strictly exceeds 1/5 (so 3/10
qualifies and 2/10 does not), regardless of category, and every high-null
entry is the base `col_info` of a column, sharing its descriptive fields
with that column's category profile. -/
theorem C6_high_null (t : Table) (si : SpatialInfo) (hr : 0 < t.nrows) :
    (∀ col ∈ t.columns,
        (baseColInfo t.nrows col ∈ (analyze_data t si).high_null_fields ↔
          (1 : ℚ) / 5 < (nullCount col.values : ℚ) / (t.nrows : ℚ)))
    ∧ (∀ info ∈ (analyze_data t si).high_null_fields, ∃ col ∈ t.columns,
        info = baseColInfo t.nrows col
        ∧ (1 : ℚ) / 5 < (nullCount col.values : ℚ) / (t.nrows : ℚ)
        ∧ info.name = (enrichCol t.nrows col).name
        ∧ info.dtype = (enrichCol t.nrows col).dtype
        ∧ info.null_count = (enrichCol t.nrows col).null_count
        ∧ info.null_percentage = (enrichCol t.nrows col).null_percentage
        ∧ info.unique_count = (enrichCol t.nrows col).unique_count) := by
  have hmemiff : ∀ col ∈ t.columns,
      (baseColInfo t.nrows col ∈ (analyze_data t si).high_null_fields ↔
        highNull t.nrows col.values = true) := by
    intro col hc
    simp only [analyze_data]
    constructor
    · intro hmem
      rcases List.mem_map.mp hmem with ⟨col', hcol', heq⟩
      rcases List.mem_filter.mp hcol' with ⟨_, hcond⟩
      have hpp : null_percentage t.nrows col'.values
          = null_percentage t.nrows col.values := by
        have h1 := congrArg ColInfo.null_percentage heq
        simpa [baseColInfo] using h1
      rw [← highNull_congr t.nrows col'.values col.values hpp]
      exact hcond
    · intro hh
      exact List.mem_map_of_mem _ (List.mem_filter.mpr ⟨hc, hh⟩)
  constructor
  · intro col hc
    rw [hmemiff col hc]
    exact highNull_iff_ratio t.nrows col.values hr
  · intro info hinfo
    simp only [analyze_data] at hinfo
    rcases List.mem_map.mp hinfo with ⟨col, hcol, rfl⟩
    rcases List.mem_filter.mp hcol with ⟨hc, hcond⟩
    have hfields := enrichCol_base_fields t.nrows col
    refine ⟨col, hc, rfl, (highNull_iff_ratio t.nrows col.values hr).mp hcond,
      ?_, ?_, ?_, ?_, ?_⟩
    · rw [hfields.1]; rfl
    · rw [hfields.2.1]; rfl
    · rw [hfields.2.2.1]; rfl
    · rw [hfields.2.2.2.1]; rfl
    · rw [hfields.2.2.2.2]; rfl

/-- C6 witness: the threshold iff at a 30-percent-null column (3/10,
flagged) and a 20-percent-null column (2/10, not flagged) of a ten-row
table. -/
theorem C6_high_null_witness :
    (0 < tenRowTable.nrows)
    ∧ (baseColInfo tenRowTable.nrows highNullCol
          ∈ (analyze_data tenRowTable plainInfo).high_null_fields ↔
        (1 : ℚ) / 5 < (nullCount highNullCol.values : ℚ) / (tenRowTable.nrows : ℚ))
    ∧ (baseColInfo tenRowTable.nrows lowNullCol
          ∈ (analyze_data tenRowTable plainInfo).high_null_fields ↔
        (1 : ℚ) / 5 < (nullCount lowNullCol.values : ℚ) / (tenRowTable.nrows : ℚ)) :=
  ⟨by decide,
   (C6_high_null tenRowTable plainInfo (by decide)).1 highNullCol (by decide),
   (C6_high_null tenRowTable plainInfo (by decide)).1 lowNullCol (by decide)⟩

/-- C7: a column is classified nested exactly when its dtype is object and
one of the first 3 non-null values is a dict or list; a numeric-dtype
column is never nested regardless of its content; an object column whose
first nested value appears after the 3-value sample is not nested. -/
theorem C7_nested_rule (nrows : Nat) (col : Column) :
    (colCategory nrows col = Category.nested ↔
        (col.dtype = Dtype.obj ∧ ((dropna col.values).take 3).any isDictOrList = true))
    ∧ (isNumericDtype col.dtype = true → colCategory nrows col ≠ Category.nested)
    ∧ (col.dtype = Dtype.obj → ((dropna col.values).take 3).any isDictOrList = false →
        colCategory nrows col ≠ Category.nested) := by
  have hnest : is_nested_col col = true ↔
      (col.dtype = Dtype.obj ∧ ((dropna col.values).take 3).any isDictOrList = true) := by
    rw [is_nested_col, Bool.and_eq_true, beq_iff_eq]
  have hiff := (colCategory_eq_nested_iff nrows col).trans hnest
  refine ⟨hiff, ?_, ?_⟩
  · intro hnum hcat
    have hobj := (hiff.mp hcat).1
    rw [hobj] at hnum
    exact absurd hnum (by decide)
  · intro _ hany hcat
    have hc2 := (hiff.mp hcat).2
    rw [hany] at hc2
    exact Bool.false_ne_true hc2

/-- C7 witness: a numeric column holding a list value is not nested; an
object column whose mapping appears only in position 4 is not nested. -/
theorem C7_nested_rule_witness :
    (isNumericDtype numListCol.dtype = true)
    ∧ colCategory 2 numListCol ≠ Category.nested
    ∧ (lateNestedCol.dtype = Dtype.obj
        ∧ ((dropna lateNestedCol.values).take 3).any isDictOrList = false)
    ∧ colCategory 4 lateNestedCol ≠ Category.nested :=
  ⟨by decide, (C7_nested_rule 2 numListCol).2.1 (by decide),
   ⟨by decide, by decide⟩,
   (C7_nested_rule 4 lateNestedCol).2.2 (by decide) (by decide)⟩

/-- C8 (amended): profiling a zero-column table does not abort — the
source has no `InputShapeError` — it returns the analysis with
`total_columns = 0`, the given row count, and empty field lists (a ragged
table is not representable in a DataFrame). -/
theorem C8_zero_columns (nr : Nat) (si : SpatialInfo) :
    analyze_data { nrows := nr, columns := [] } si =
      { total_columns := 0, total_rows := nr, unique_fields := []
      , categorical_fields := [], high_null_fields := [], nested_fields := []
      , spatial_info := si, coordinate_candidates := [] } := by
  simp [analyze_data, detect_coordinate_columns, coordLoop]

/-- C8 counterexample: a concrete zero-column table is profiled into a
well-formed report instead of aborting with an error. -/
theorem C8_cx :
    (analyze_data { nrows := 3, columns := [] } plainInfo).total_columns = 0
    ∧ (analyze_data { nrows := 3, columns := [] } plainInfo).nested_fields = []
    ∧ (analyze_data { nrows := 3, columns := [] } plainInfo).unique_fields = []
    ∧ (analyze_data { nrows := 3, columns := [] } plainInfo).categorical_fields = []
    ∧ (analyze_data { nrows := 3, columns := [] } plainInfo).high_null_fields = []
    ∧ (analyze_data { nrows := 3, columns := [] } plainInfo).total_rows = 3 :=
  ⟨by decide, by decide, by decide, by decide, by decide, by decide⟩

/-- C9: a numeric-dtype column is classified unique and appears in the
unique list; its stats block is omitted exactly when the column has no
non-null value, and otherwise records attained min/max bounds over the
non-null values, the mean `sum / count`, and a median between min and
max — no NaN placeholder and no failure. -/
theorem C9_numeric_stats (t : Table) (si : SpatialInfo) :
    ∀ col ∈ t.columns, isNumericDtype col.dtype = true →
      colCategory t.nrows col = Category.unique
      ∧ enrichCol t.nrows col ∈ (analyze_data t si).unique_fields
      ∧ (dropna col.values = [] → (enrichCol t.nrows col).stats = none)
      ∧ (dropna col.values ≠ [] →
          ∃ s, (enrichCol t.nrows col).stats = some s
            ∧ s.min ∈ (dropna col.values).map cellToRat
            ∧ s.max ∈ (dropna col.values).map cellToRat
            ∧ (∀ x ∈ (dropna col.values).map cellToRat, s.min ≤ x ∧ x ≤ s.max)
            ∧ s.mean = ((dropna col.values).map cellToRat).sum
                / (((dropna col.values).map cellToRat).length : ℚ)
            ∧ s.min ≤ s.mean ∧ s.mean ≤ s.max
            ∧ s.min ≤ s.median ∧ s.median ≤ s.max) := by
  intro col hc hnum
  have hcat := numeric_colCategory t.nrows col hnum
  refine ⟨hcat, ?_, ?_, ?_⟩
  · simp only [analyze_data]
    refine List.mem_map_of_mem _ (List.mem_filter.mpr ⟨hc, ?_⟩)
    rw [hcat]
    rfl
  · intro hd
    exact enrichCol_stats_none t.nrows col hcat hd
  · intro hd
    have hmap : (dropna col.values).map cellToRat ≠ [] := by
      intro h0
      exact hd (List.map_eq_nil.mp h0)
    refine ⟨_, enrichCol_stats_some t.nrows col hcat hnum hd,
      ratMin_mem _ hmap, ratMax_mem _ hmap,
      fun x hx => ⟨ratMin_le _ x hx, le_ratMax _ x hx⟩, rfl,
      (ratMean_bounds _ hmap).1, (ratMean_bounds _ hmap).2,
      (ratMedian_bounds _ hmap).1, (ratMedian_bounds _ hmap).2⟩

/-- C9 witness: the id column (numeric, 4 non-null values) is unique; the
all-null numeric column omits its stats block. -/
theorem C9_numeric_stats_witness :
    (isNumericDtype idCol.dtype = true)
    ∧ colCategory demoTable.nrows idCol = Category.unique
    ∧ (isNumericDtype emptyNumCol.dtype = true)
    ∧ (dropna emptyNumCol.values = [])
    ∧ (enrichCol demoTable.nrows emptyNumCol).stats = none :=
  ⟨by decide,
   (C9_numeric_stats demoTable plainInfo idCol (by decide) (by decide)).1,
   by decide, by decide,
   (C9_numeric_stats demoTable plainInfo emptyNumCol (by decide) (by decide)).2.2.1
     (by decide)⟩

/-- C10: every recorded `unique_count` is the `safe_unique_count` of its
column's values and is at most the row count (and, as a `Nat`, at least
0), whichever of the two counting paths produced it. -/
theorem C10_unique_count_bound (t : Table) (si : SpatialInfo) (hrect : Rectangular t) :
    ∀ col ∈ t.columns,
      (enrichCol t.nrows col).unique_count = safe_unique_count col.values
      ∧ safe_unique_count col.values ≤ t.nrows := by
  intro col hc
  refine ⟨(enrichCol_base_fields t.nrows col).2.2.2.2, ?_⟩
  calc safe_unique_count col.values ≤ col.values.length := safe_unique_count_le _
    _ = t.nrows := hrect col hc

/-- C10 witness: the bound instantiated at the fallback-path meta column
of the 5-row table. -/
theorem C10_unique_count_bound_witness :
    Rectangular metaTable
    ∧ ((enrichCol metaTable.nrows metaCol).unique_count = safe_unique_count metaCol.values
        ∧ safe_unique_count metaCol.values ≤ metaTable.nrows) :=
  ⟨by decide,
   C10_unique_count_bound metaTable plainInfo (by decide) metaCol (by decide)⟩

end ViewDb
